import Mathlib

/-!
# Verification of the icepack shallow-stream solver core

Shallow embedding of the `ShallowStream` glacier model implementation
(`shallow_stream.cpp`): the constitutive tensors of `CTensors`, the
floating/grounded classification used by `ShallowStream::residual` and
`velocity_matrix`, the driving-stress assembly, the preconditioned linear
solve, and the damped Newton iteration of `ShallowStream::diagnostic_solve`,
together with the trivial placeholder solves.  Real (double) arithmetic is
modelled by `ℝ`.
-/

open Classical

noncomputable section

namespace Icepack

/-- Physical constants (ice density, water density, gravity).  In the source
they are process-wide values from `icepack/physical_constants.hpp` (outside
the solver file); the spec directs that they be represented as an explicit
configuration structure, which we do here. -/
structure PhysicalConstants where
  rho_ice : ℝ
  rho_water : ℝ
  gravity : ℝ

/-- A 2-vector (`Tensor<1, 2>` in deal.II), as used for velocities, basis
function values, normals and surface gradients. -/
abbrev Vec2 : Type := ℝ × ℝ

/-- Inner product of two 2-vectors: `a * b` for rank-1 tensors. -/
def dotV (a b : Vec2) : ℝ := a.1 * b.1 + a.2 * b.2

/-- Scalar multiple of a 2-vector. -/
def smulV (c : ℝ) (a : Vec2) : Vec2 := (c * a.1, c * a.2)

/-- A symmetric rank-2 tensor in two dimensions (`SymmetricTensor<2, 2>`),
stored by its three independent components. -/
structure Sym2 where
  xx : ℝ
  xy : ℝ
  yy : ℝ

/-- The zero symmetric tensor. -/
def Sym2.zero : Sym2 := ⟨0, 0, 0⟩

/-- Trace (`first_invariant`) of a symmetric rank-2 tensor. -/
def Sym2.tr (a : Sym2) : ℝ := a.xx + a.yy

/-- Double contraction `a * b` of two symmetric rank-2 tensors (the
off-diagonal component appears twice in the sum). -/
def ddot (a b : Sym2) : ℝ := a.xx * b.xx + 2 * a.xy * b.xy + a.yy * b.yy

/-- A symmetric rank-4 tensor (`SymmetricTensor<4, 2>`), represented by the
bilinear form `v ↦ w ↦ v * A * w` through which every use in the assembly
code contracts it with symmetric rank-2 tensors on both sides. -/
abbrev Sym4 : Type := Sym2 → Sym2 → ℝ

namespace CTensors

/-- `I = unit_symmetric_tensor<2>()`, the rank-2 identity. -/
def I : Sym2 := ⟨1, 0, 1⟩

/-- `II = identity_tensor<2>()`: the rank-4 identity on symmetric tensors,
acting as `v * II * w = v * w`. -/
def II : Sym4 := fun v w => ddot v w

/-- `outer_product(a, b)`: the rank-4 tensor acting as
`v * (a ⊗ b) * w = (v * a) * (b * w)`. -/
def outerProduct (a b : Sym2) : Sym4 := fun v w => ddot v a * ddot b w

/-- `C = II + outer_product(I, I)`. -/
def C : Sym4 := fun v w => II v w + outerProduct I I v w

end CTensors

/-- Gas constant and Arrhenius parameters for the rate factor.  Modelled from
the spec: the temperature-dependent rate factor of the power-law constitutive
relation (`viscosity` is declared in icepack headers outside `src/`); the
reference fluidity is a positive physical constant. -/
def idealGasConstant : ℝ := 8.3144

/-- Modelled from the spec: reference fluidity `A0` of the power law
(a positive physical constant supplied as configuration). -/
def referenceFluidity : ℝ := 3.985e-13

/-- Modelled from the spec: activation energy of the Arrhenius rate factor. -/
def activationEnergy : ℝ := 6.0e4

/-- Modelled from the spec: Arrhenius rate factor
`A(T) = A0 · exp(−Q / (R·T))` of the power-law constitutive relation. -/
def rate_factor (temperature : ℝ) : ℝ :=
  referenceFluidity * Real.exp (-(activationEnergy / (idealGasConstant * temperature)))

/-- Modelled from the spec: the power-law (Glen) constitutive viscosity with
flow-law exponent `n = 3`,
`ν(T, ε_e) = ½ · A(T)^(−1/n) · ε_e^(1/n − 1)`; the function `viscosity`
called by `CTensors` is declared in icepack headers outside `src/`. -/
def viscosity (temperature eps_e : ℝ) : ℝ :=
  1 / 2 * rate_factor temperature ^ (-(1 : ℝ) / 3) * eps_e ^ ((1 : ℝ) / 3 - 1)

/-- The effective strain rate `eps_e = sqrt((eps * eps + tr * tr) / 2)`
computed by both `CTensors::nonlinear` and `CTensors::linearized`. -/
def epsE (eps : Sym2) : ℝ :=
  Real.sqrt ((ddot eps eps + Sym2.tr eps * Sym2.tr eps) / 2)

/-- The tensor `gamma = (eps + tr * I) / eps_e` formed by
`CTensors::linearized`; the division is componentwise by the scalar
`eps_e`. -/
def gammaT (eps : Sym2) : Sym2 :=
  ⟨(eps.xx + Sym2.tr eps * 1) / epsE eps,
   (eps.xy + Sym2.tr eps * 0) / epsE eps,
   (eps.yy + Sym2.tr eps * 1) / epsE eps⟩

namespace CTensors

/-- `CTensors::nonlinear(T, h, eps) = 2 · ν · C` with
`ν = h · viscosity(T, eps_e)`. -/
def nonlinear (temperature h : ℝ) (eps : Sym2) : Sym4 :=
  fun v w => 2 * (h * viscosity temperature (epsE eps)) * C v w

/-- `CTensors::linearized(T, h, eps) = 2 · ν · (C − γ ⊗ γ / 3)` with
`γ = (eps + tr·I)/eps_e` and `ν = h · viscosity(T, eps_e)`. -/
def linearized (temperature h : ℝ) (eps : Sym2) : Sym4 :=
  fun v w =>
    2 * (h * viscosity temperature (epsE eps)) *
      (C v w - outerProduct (gammaT eps) (gammaT eps) v w / 3)

/-- Guarded variant of `CTensors::linearized` making the division that forms
`γ = (eps + tr·I)/eps_e` explicit: the source divides by `eps_e` with no
guard, so the result is flagged `none` exactly when the divisor `eps_e`
is zero. -/
def linearizedChecked (temperature h : ℝ) (eps : Sym2) : Option Sym4 :=
  if epsE eps = 0 then none else some (linearized temperature h eps)

end CTensors

/-- The fixed flotation tolerance `flotation_tolerance = 1.0e-4` used by both
`ShallowStream::residual` and `velocity_matrix`. -/
def flotation_tolerance : ℝ := 1.0e-4

/-- The floating/grounded classification computed at each quadrature point by
`ShallowStream::residual` and `velocity_matrix`:
`flotation = (1 - rho_ice/rho_water) * H` and
`floating = s/flotation - 1.0 > flotation_tolerance`. -/
def floating (pc : PhysicalConstants) (s H : ℝ) : Prop :=
  s / ((1 - pc.rho_ice / pc.rho_water) * H) - 1.0 > flotation_tolerance

/-- Guarded variant of the flotation classification, making the division by
the flotation thickness `(1 - rho_ice/rho_water) * H` explicit: the source
divides with no guard, so the classification is flagged `none` exactly when
the divisor is zero. -/
def floatingChecked (pc : PhysicalConstants) (s H : ℝ) : Option Bool :=
  if (1 - pc.rho_ice / pc.rho_water) * H = 0 then none
  else some (decide (floating pc s H))

/-- Contribution of one quadrature point to `cell_residual(i)` in
`ShallowStream::residual`: the viscous term
`-(eps_phi_i * C * eps) * dx` with `C = CTensors::nonlinear(T, H, eps)`,
and, only when the point is classified floating, the basal drag term
`-(phi_i * u_q) * beta_q * dx`. -/
def residualQPointTerm (pc : PhysicalConstants) (temperature s H beta dx : ℝ)
    (eps eps_phi_i : Sym2) (phi_i u_q : Vec2) : ℝ :=
  -(CTensors.nonlinear temperature H eps eps_phi_i eps * dx)
    + (if floating pc s H then -(dotV phi_i u_q * beta * dx) else 0)

/-- Contribution of one quadrature point to `cell_matrix(i, j)` in
`velocity_matrix`: the viscous term
`(eps_phi_i * C * eps_phi_j) * dx` with `C = CTensors::linearized(T, H, eps)`
and, only when the point is classified floating, the basal drag term
`(phi_i * phi_j) * beta_q * dx`. -/
def matrixQPointTerm (pc : PhysicalConstants) (temperature s H beta dx : ℝ)
    (eps eps_phi_i eps_phi_j : Sym2) (phi_i phi_j : Vec2) : ℝ :=
  CTensors.linearized temperature H eps eps_phi_i eps_phi_j * dx
    + (if floating pc s H then dotV phi_i phi_j * beta * dx else 0)

/-- Contribution of one cell-interior quadrature point to `cell_rhs(i)` in
`ShallowStream::driving_stress`:
`tau_q = -rho_ice * gravity * h_q * grad_s_q` tested against the vector
basis function, `(phi_i * tau_q) * dx`. -/
def drivingStressQPointTerm (pc : PhysicalConstants) (h : ℝ)
    (grad_s phi_i : Vec2) (dx : ℝ) : ℝ :=
  dotV phi_i (smulV (-(pc.rho_ice * pc.gravity * h)) grad_s) * dx

/-- The frontal stress at one face quadrature point in
`ShallowStream::driving_stress`: with draft `D = s_q - H`, the stress is
`tau_q = 0.5 * gravity * (rho_ice*H*H - (D<0) * rho_water*D*D) * n`, where
the boolean `(D<0)` is the integer 1 when the ice base is below sea level
and 0 otherwise; the contribution is `(phi_i * tau_q) * dl`. -/
def frontalStressQPointTerm (pc : PhysicalConstants) (s H : ℝ)
    (n phi_i : Vec2) (dl : ℝ) : ℝ :=
  dotV phi_i
      (smulV (0.5 * pc.gravity *
        (pc.rho_ice * H * H
          - (if s - H < 0 then (1 : ℝ) else 0) * pc.rho_water * (s - H) * (s - H))) n)
    * dl

/-- Per-face dispatch of the frontal stress in
`ShallowStream::driving_stress`: the frontal contribution is added only when
the face is at the boundary and its `boundary_id()` equals 1, the id marking
the calving terminus. -/
def faceFrontalTerm (pc : PhysicalConstants) (atBoundary : Bool)
    (boundaryId : ℕ) (s H : ℝ) (n phi_i : Vec2) (dl : ℝ) : ℝ :=
  if atBoundary = true ∧ boundaryId = 1 then
    frontalStressQPointTerm pc s H n phi_i dl
  else 0

/-- Failure signal of the iterative linear solver (deal.II throws
`SolverControl::NoConvergence` when the iteration budget is exhausted). -/
inductive SolverFailure : Type where
  | noConvergence : SolverFailure

/-- Abstract view of the preconditioned linear system handed to `SolverCG`:
one preconditioned conjugate-gradient update step and the residual norm the
solver control monitors.  Modelled from the spec: the CG iteration and the
incomplete-factorization (`SparseILU`) preconditioner live inside deal.II,
outside `src/`; only the control flow around them is source code. -/
structure CGSystem (V : Type) where
  step : V → V
  resNorm : V → ℝ

/-- Modelled from the spec: the `SolverCG` iteration under a
`SolverControl(maxSteps, tol)` budget — it succeeds as soon as the monitored
residual norm reaches the tolerance, and signals a solver-failure condition
when the iteration budget is exhausted without reaching it. -/
def cgSolve {V : Type} (p : CGSystem V) (tol : ℝ) :
    ℕ → V → Except SolverFailure V
  | 0, x => if p.resNorm x ≤ tol then Except.ok x
            else Except.error SolverFailure.noConvergence
  | n + 1, x => if p.resNorm x ≤ tol then Except.ok x
                else cgSolve p tol n (p.step x)

/-- `linear_solve(A, u, f, constraints)`: runs conjugate gradients under
`SolverControl(1000, 1.0e-12)` and, after a successful solve, re-imposes the
constraint relations with `constraints.distribute(u)`; a solver failure
propagates (there is no handler in `linear_solve`). -/
def linear_solve {V : Type} (p : CGSystem V) (constraints : V → V) (x0 : V) :
    Except SolverFailure V :=
  (cgSolve p 1.0e-12 1000 x0).map constraints

/-- The fixed nonlinear tolerance of `ShallowStream::diagnostic_solve`. -/
def tolerance : ℝ := 1.0e-10

/-- The fixed iteration cap of `ShallowStream::diagnostic_solve`. -/
def max_iterations : ℕ := 100

/-- The fixed damping factor `alpha = 0.1` of
`ShallowStream::diagnostic_solve`. -/
def alpha : ℝ := 0.1

/-- The initial value `error = 1.0e16` of the relative residual norm before
the first Newton iteration. -/
def errorInit : ℝ := 1.0e16

/-- Abstract view of the finite-element operations that
`ShallowStream::diagnostic_solve` invokes on coefficient vectors of type
`V`.  Modelled from the spec where outside `src/`: `norm` over fields and
the sparse linear algebra live in icepack/deal.II headers; `residual`
abstracts `this->residual(s, h, beta, u, tau)` for the fixed input fields,
`tau` is the driving stress assembled once, and `linSolve u r` abstracts
assembling `velocity_matrix` about `u`, applying the boundary values and
calling `linear_solve` on right-hand side `r` (it may signal the linear
solver-failure condition). -/
structure DiagCtx (V : Type) [AddCommGroup V] [Module ℝ V] where
  residual : V → V
  linSolve : V → V → Except SolverFailure V
  norm : V → ℝ
  tau : V

/-- Result of the Newton loop: the final velocity iterate, the final relative
residual norm `error`, and the number of iterations executed. -/
structure NewtonResult (V : Type) where
  u : V
  error : ℝ
  iters : ℕ

/-- The damped Newton loop of `ShallowStream::diagnostic_solve`,
`for (i = 0; i < max_iterations && error > tolerance; ++i)`, with the
remaining iteration budget as fuel: while `error > tolerance`, solve the
linear system about the current `u` for the increment `dU`, update
`U.add(alpha, dU)` with `alpha = 0.1`, reassemble the residual at the new
velocity and recompute `error = norm(r) / tau_norm` against the driving
stress norm computed once at the start. -/
def newtonIterate {V : Type} [AddCommGroup V] [Module ℝ V] (c : DiagCtx V) :
    ℕ → V → ℝ → Except SolverFailure (NewtonResult V)
  | 0, u, error => Except.ok ⟨u, error, 0⟩
  | n + 1, u, error =>
    if error > tolerance then
      match c.linSolve u (c.residual u) with
      | Except.error e => Except.error e
      | Except.ok dU =>
        match newtonIterate c n (u + alpha • dU)
            (c.norm (c.residual (u + alpha • dU)) / c.norm c.tau) with
        | Except.error e => Except.error e
        | Except.ok res => Except.ok ⟨res.u, res.error, res.iters + 1⟩
    else Except.ok ⟨u, error, 0⟩

/-- `ShallowStream::diagnostic_solve(s, h, beta, u0)`: copy the initial
guess, assemble the driving stress and its norm once, run the damped Newton
loop from `error = 1.0e16`, and return the final velocity iterate — only the
velocity field is returned. -/
def diagnostic_solve {V : Type} [AddCommGroup V] [Module ℝ V]
    (c : DiagCtx V) (u0 : V) : Except SolverFailure V :=
  (newtonIterate c max_iterations u0 errorInit).map fun res => res.u

/-- A scalar field, modelled by its coefficient vector indexed by degrees of
freedom. -/
abbrev Field : Type := ℕ → ℝ

/-- A vector field, likewise modelled by its flat coefficient vector. -/
abbrev VectorField : Type := ℕ → ℝ

/-- `ShallowStream::prognostic_solve(dt, h0, a, u)`: copies `h0` and returns
it — the body is an unimplemented placeholder. -/
def prognostic_solve (dt : ℝ) (h0 a : Field) (u : VectorField) : Field :=
  let h : Field := h0
  h

/-- `ShallowStream::adjoint_solve(h, beta, u0, f)`: copies `f` and returns
it — the body is an unimplemented placeholder. -/
def adjoint_solve (h beta u0 : Field) (f : VectorField) : VectorField :=
  let q : VectorField := f
  q

/-- Concrete one-dimensional test context in which the relative residual norm
after the first update is exactly `1.0e-10`: the increment is always zero and
the reassembled residual has norm `1.0e-10` against a driving-stress norm of
one. -/
def ctxTol : DiagCtx ℝ where
  residual := fun _ => 1.0e-10
  linSolve := fun _ _ => Except.ok 0
  norm := fun x => x
  tau := 1

/-- Concrete one-dimensional test context whose residual vanishes after the
first update, so the Newton loop converges on its first iteration. -/
def ctxConv : DiagCtx ℝ where
  residual := fun _ => 0
  linSolve := fun _ _ => Except.ok 0
  norm := fun x => x
  tau := 1

/-- Concrete one-dimensional test context whose relative residual norm stays
at one forever, so the Newton loop runs to its iteration cap without
converging. -/
def ctxStall : DiagCtx ℝ where
  residual := fun _ => 1
  linSolve := fun _ _ => Except.ok 0
  norm := fun x => x
  tau := 1

/-- Concrete one-dimensional test context with zero driving stress, zero
residual and a linear solver returning the zero increment. -/
def ctxZero : DiagCtx ℝ where
  residual := fun _ => 0
  linSolve := fun _ _ => Except.ok 0
  norm := fun x => x
  tau := 0

/-- Concrete one-dimensional linear system whose monitored residual norm
stays at one forever, so the conjugate-gradient budget is always
exhausted. -/
def cgStall : CGSystem ℝ where
  step := fun x => x
  resNorm := fun _ => 1

/-! ## Helper lemmas -/

theorem ddot_self_nonneg (a : Sym2) : 0 ≤ ddot a a := by
  unfold ddot
  nlinarith [sq_nonneg a.xx, sq_nonneg a.xy, sq_nonneg a.yy]

theorem epsE_nonneg (eps : Sym2) : 0 ≤ epsE eps := Real.sqrt_nonneg _

theorem epsE_eq_zero_iff (eps : Sym2) : epsE eps = 0 ↔ eps = Sym2.zero := by
  unfold epsE
  rw [Real.sqrt_eq_zero']
  cases eps with
  | mk xx xy yy =>
    simp only [ddot, Sym2.tr, Sym2.zero, Sym2.mk.injEq]
    constructor
    · intro hle
      have hxx : xx * xx = 0 := le_antisymm
        (by nlinarith [sq_nonneg xy, sq_nonneg yy, sq_nonneg (xx + yy)])
        (mul_self_nonneg xx)
      have hxy : xy * xy = 0 := le_antisymm
        (by nlinarith [sq_nonneg xx, sq_nonneg yy, sq_nonneg (xx + yy)])
        (mul_self_nonneg xy)
      have hyy : yy * yy = 0 := le_antisymm
        (by nlinarith [sq_nonneg xx, sq_nonneg xy, sq_nonneg (xx + yy)])
        (mul_self_nonneg yy)
      exact ⟨mul_self_eq_zero.mp hxx, mul_self_eq_zero.mp hxy, mul_self_eq_zero.mp hyy⟩
    · rintro ⟨h1, h2, h3⟩
      rw [h1, h2, h3]
      norm_num

theorem newtonIterate_stop {V : Type} [AddCommGroup V] [Module ℝ V]
    (c : DiagCtx V) (n : ℕ) (u : V) (err : ℝ) (h : err ≤ tolerance) :
    newtonIterate c n u err = Except.ok ⟨u, err, 0⟩ := by
  cases n with
  | zero => rfl
  | succ n =>
    simp only [newtonIterate]
    rw [if_neg (not_lt.mpr h)]

theorem newtonIterate_step {V : Type} [AddCommGroup V] [Module ℝ V]
    (c : DiagCtx V) (n : ℕ) (u : V) (err : ℝ) (d : V)
    (herr : tolerance < err) (hsolve : c.linSolve u (c.residual u) = Except.ok d) :
    newtonIterate c (n + 1) u err
      = Except.map (fun res => ⟨res.u, res.error, res.iters + 1⟩)
          (newtonIterate c n (u + alpha • d)
            (c.norm (c.residual (u + alpha • d)) / c.norm c.tau)) := by
  simp only [newtonIterate]
  rw [if_pos herr, hsolve]
  cases hres : newtonIterate c n (u + alpha • d)
      (c.norm (c.residual (u + alpha • d)) / c.norm c.tau) with
  | error e => simp [hres, Except.map]
  | ok r => simp [hres, Except.map]

theorem newtonIterate_exit {V : Type} [AddCommGroup V] [Module ℝ V]
    (c : DiagCtx V) :
    ∀ (n : ℕ) (u : V) (err : ℝ) (res : NewtonResult V),
      newtonIterate c n u err = Except.ok res →
      res.iters ≤ n ∧ (res.error ≤ tolerance ∨ res.iters = n) := by
  intro n
  induction n with
  | zero =>
    intro u err res h
    obtain rfl : (⟨u, err, 0⟩ : NewtonResult V) = res := Except.ok.inj h
    exact ⟨Nat.le_refl 0, Or.inr rfl⟩
  | succ n ih =>
    intro u err res h
    simp only [newtonIterate] at h
    by_cases herr : err > tolerance
    · rw [if_pos herr] at h
      cases hs : c.linSolve u (c.residual u) with
      | error e =>
        rw [hs] at h
        exact absurd h (by simp)
      | ok d =>
        rw [hs] at h
        cases hr : newtonIterate c n (u + alpha • d)
            (c.norm (c.residual (u + alpha • d)) / c.norm c.tau) with
        | error e => simp [hr] at h
        | ok r =>
          simp only [hr] at h
          obtain rfl : (⟨r.u, r.error, r.iters + 1⟩ : NewtonResult V) = res :=
            Except.ok.inj h
          obtain ⟨h1, h2⟩ := ih (u + alpha • d)
            (c.norm (c.residual (u + alpha • d)) / c.norm c.tau) r hr
          refine ⟨Nat.succ_le_succ h1, ?_⟩
          rcases h2 with h2 | h2
          · exact Or.inl h2
          · exact Or.inr (by rw [h2])
    · rw [if_neg herr] at h
      obtain rfl : (⟨u, err, 0⟩ : NewtonResult V) = res := Except.ok.inj h
      exact ⟨Nat.zero_le _, Or.inl (not_lt.mp herr)⟩

theorem cgSolve_ok_spec {V : Type} (p : CGSystem V) (tol : ℝ) :
    ∀ (n : ℕ) (x y : V), cgSolve p tol n x = Except.ok y →
      ∃ k, k ≤ n ∧ y = p.step^[k] x ∧ p.resNorm y ≤ tol := by
  intro n
  induction n with
  | zero =>
    intro x y h
    simp only [cgSolve] at h
    by_cases hr : p.resNorm x ≤ tol
    · rw [if_pos hr] at h
      obtain rfl : x = y := Except.ok.inj h
      exact ⟨0, Nat.le_refl 0, rfl, hr⟩
    · rw [if_neg hr] at h
      exact absurd h (by simp)
  | succ n ih =>
    intro x y h
    simp only [cgSolve] at h
    by_cases hr : p.resNorm x ≤ tol
    · rw [if_pos hr] at h
      obtain rfl : x = y := Except.ok.inj h
      exact ⟨0, Nat.zero_le _, rfl, hr⟩
    · rw [if_neg hr] at h
      obtain ⟨k, hk, hy, hres⟩ := ih (p.step x) y h
      refine ⟨k + 1, Nat.succ_le_succ hk, ?_, hres⟩
      rw [Function.iterate_succ_apply]
      exact hy

theorem cgSolve_error_spec {V : Type} (p : CGSystem V) (tol : ℝ) :
    ∀ (n : ℕ) (x : V), (∀ k, k ≤ n → tol < p.resNorm (p.step^[k] x)) →
      cgSolve p tol n x = Except.error SolverFailure.noConvergence := by
  intro n
  induction n with
  | zero =>
    intro x h
    simp only [cgSolve]
    rw [if_neg (not_le.mpr (by simpa using h 0 (Nat.le_refl 0)))]
  | succ n ih =>
    intro x h
    simp only [cgSolve]
    rw [if_neg (not_le.mpr (by simpa using h 0 (Nat.zero_le _)))]
    refine ih (p.step x) (fun k hk => ?_)
    have hx := h (k + 1) (Nat.succ_le_succ hk)
    rwa [Function.iterate_succ_apply] at hx

theorem ctxStall_loop : ∀ (n : ℕ) (u : ℝ),
    newtonIterate ctxStall n u 1 = Except.ok ⟨u, 1, n⟩ := by
  intro n
  induction n with
  | zero => intro u; rfl
  | succ n ih =>
    intro u
    rw [newtonIterate_step ctxStall n u 1 0 (by norm_num [tolerance]) rfl]
    have hu : u + alpha • (0 : ℝ) = u := by simp
    rw [hu]
    have herr : ctxStall.norm (ctxStall.residual u) / ctxStall.norm ctxStall.tau = 1 := by
      norm_num [ctxStall]
    rw [herr, ih u]
    rfl

theorem ctxStall_run :
    newtonIterate ctxStall max_iterations (5 : ℝ) errorInit
      = Except.ok ⟨5, 1, 100⟩ := by
  rw [show max_iterations = 99 + 1 from rfl,
    newtonIterate_step ctxStall 99 5 errorInit 0
      (by norm_num [tolerance, errorInit]) rfl]
  have hu : (5 : ℝ) + alpha • (0 : ℝ) = 5 := by simp
  rw [hu]
  have herr : ctxStall.norm (ctxStall.residual (5 : ℝ)) / ctxStall.norm ctxStall.tau = 1 := by
    norm_num [ctxStall]
  rw [herr, ctxStall_loop 99 5]
  rfl

theorem ctxConv_run :
    newtonIterate ctxConv max_iterations (5 : ℝ) errorInit
      = Except.ok ⟨5, 0, 1⟩ := by
  rw [show max_iterations = 99 + 1 from rfl,
    newtonIterate_step ctxConv 99 5 errorInit 0
      (by norm_num [tolerance, errorInit]) rfl]
  have hu : (5 : ℝ) + alpha • (0 : ℝ) = 5 := by simp
  rw [hu]
  have herr : ctxConv.norm (ctxConv.residual (5 : ℝ)) / ctxConv.norm ctxConv.tau = 0 := by
    norm_num [ctxConv]
  rw [herr, newtonIterate_stop ctxConv 99 5 0 (by norm_num [tolerance])]
  rfl

theorem ddot_comm (a b : Sym2) : ddot a b = ddot b a := by
  unfold ddot
  ring

theorem ctensorC_self_nonneg (v : Sym2) : 0 ≤ CTensors.C v v := by
  simp only [CTensors.C, CTensors.II, CTensors.outerProduct, CTensors.I, ddot]
  nlinarith [sq_nonneg v.xx, sq_nonneg v.xy, sq_nonneg v.yy, sq_nonneg (v.xx + v.yy)]

theorem cauchyC (a v : Sym2) :
    CTensors.C a v ^ 2 ≤ CTensors.C a a * CTensors.C v v := by
  simp only [CTensors.C, CTensors.II, CTensors.outerProduct, CTensors.I, ddot]
  nlinarith [sq_nonneg (a.xx * v.xy - a.xy * v.xx),
    sq_nonneg (a.xx * v.yy - a.yy * v.xx),
    sq_nonneg (a.xy * v.yy - a.yy * v.xy),
    sq_nonneg (a.xx * (v.xx + v.yy) - (a.xx + a.yy) * v.xx),
    sq_nonneg (a.xy * (v.xx + v.yy) - (a.xx + a.yy) * v.xy),
    sq_nonneg (a.yy * (v.xx + v.yy) - (a.xx + a.yy) * v.yy)]

theorem ddot_gammaT (eps v : Sym2) :
    ddot v (gammaT eps) = CTensors.C eps v / epsE eps := by
  simp only [gammaT, CTensors.C, CTensors.II, CTensors.outerProduct, CTensors.I,
    ddot, Sym2.tr]
  ring

theorem epsE_sq (eps : Sym2) :
    epsE eps ^ 2 = (ddot eps eps + Sym2.tr eps * Sym2.tr eps) / 2 := by
  unfold epsE
  rw [Real.sq_sqrt]
  have h1 : 0 ≤ ddot eps eps := ddot_self_nonneg eps
  have h2 : 0 ≤ Sym2.tr eps * Sym2.tr eps := mul_self_nonneg _
  linarith

theorem ctensorC_self_eq (eps : Sym2) :
    CTensors.C eps eps = 2 * epsE eps ^ 2 := by
  rw [epsE_sq]
  simp only [CTensors.C, CTensors.II, CTensors.outerProduct, CTensors.I, ddot, Sym2.tr]
  ring

theorem gamma_sq_le (eps v : Sym2) :
    ddot v (gammaT eps) ^ 2 ≤ 2 * CTensors.C v v := by
  rcases eq_or_ne (epsE eps) 0 with he | he
  · rw [ddot_gammaT, he, div_zero]
    nlinarith [ctensorC_self_nonneg v]
  · have hpos : 0 < epsE eps := lt_of_le_of_ne (epsE_nonneg eps) (Ne.symm he)
    have hsq : 0 < epsE eps ^ 2 := by positivity
    rw [ddot_gammaT, div_pow, div_le_iff₀ hsq]
    calc CTensors.C eps v ^ 2 ≤ CTensors.C eps eps * CTensors.C v v := cauchyC eps v
      _ = 2 * epsE eps ^ 2 * CTensors.C v v := by rw [ctensorC_self_eq]
      _ = 2 * CTensors.C v v * epsE eps ^ 2 := by ring

theorem rate_factor_nonneg (temperature : ℝ) : 0 ≤ rate_factor temperature := by
  unfold rate_factor referenceFluidity
  positivity

theorem viscosity_nonneg (temperature e : ℝ) (he : 0 ≤ e) :
    0 ≤ viscosity temperature e := by
  unfold viscosity
  exact mul_nonneg
    (mul_nonneg (by norm_num) (Real.rpow_nonneg (rate_factor_nonneg temperature) _))
    (Real.rpow_nonneg he _)

/-! ## Claim theorems -/

/-- C8: `ShallowStream::prognostic_solve` and `ShallowStream::adjoint_solve`
are unimplemented placeholders: for every input, `prognostic_solve` returns a
thickness field coefficient-wise equal to the input `h0` regardless of `dt`,
accumulation and velocity, and `adjoint_solve` returns a field
coefficient-wise equal to the input right-hand side `f`. -/
theorem placeholder_solves :
    (∀ (dt : ℝ) (h0 a : Field) (u : VectorField) (i : ℕ),
        prognostic_solve dt h0 a u i = h0 i)
    ∧ ∀ (h beta u0 : Field) (f : VectorField) (i : ℕ),
        adjoint_solve h beta u0 f i = f i :=
  ⟨fun _ _ _ _ _ => rfl, fun _ _ _ _ _ => rfl⟩

/-- C2: at every quadrature point, the floating/grounded classification used
by `ShallowStream::residual` and `velocity_matrix` is the pure
strict-inequality step function — floating exactly when
`s / ((1 − ρ_ice/ρ_water)·H) − 1 > 1e−4`, and grounded otherwise, including
when the value equals the tolerance exactly; the basal drag term `β·u` is
added to the residual and to the tangent matrix only at points classified
floating, with no intermediate state. -/
theorem flotation_classification (pc : PhysicalConstants)
    (temperature s H beta dx : ℝ) (eps ephi ephj : Sym2) (phi phj uq : Vec2) :
    (floating pc s H ↔ s / ((1 - pc.rho_ice / pc.rho_water) * H) - 1 > 1.0e-4)
    ∧ (s / ((1 - pc.rho_ice / pc.rho_water) * H) - 1 = flotation_tolerance →
        ¬ floating pc s H)
    ∧ (floating pc s H →
        residualQPointTerm pc temperature s H beta dx eps ephi phi uq
            = -(CTensors.nonlinear temperature H eps ephi eps * dx)
                - dotV phi uq * beta * dx
          ∧ matrixQPointTerm pc temperature s H beta dx eps ephi ephj phi phj
            = CTensors.linearized temperature H eps ephi ephj * dx
                + dotV phi phj * beta * dx)
    ∧ (¬ floating pc s H →
        residualQPointTerm pc temperature s H beta dx eps ephi phi uq
            = -(CTensors.nonlinear temperature H eps ephi eps * dx)
          ∧ matrixQPointTerm pc temperature s H beta dx eps ephi ephj phi phj
            = CTensors.linearized temperature H eps ephi ephj * dx) := by
  refine ⟨?_, ?_, ?_, ?_⟩
  · unfold floating flotation_tolerance
    norm_num
  · intro hEq hFl
    unfold floating at hFl
    unfold flotation_tolerance at hEq hFl
    norm_num at hEq hFl
    linarith
  · intro hFl
    constructor
    · unfold residualQPointTerm
      rw [if_pos hFl]
      ring
    · unfold matrixQPointTerm
      rw [if_pos hFl]
  · intro hFl
    constructor
    · unfold residualQPointTerm
      rw [if_neg hFl]
      ring
    · unfold matrixQPointTerm
      rw [if_neg hFl]
      ring

/-- Witness for C2: with densities 900 and 1000 and thickness 10, a surface
elevation of 1.0001 sits exactly at the flotation tolerance, and the point is
classified grounded. -/
theorem flotation_classification_witness :
    ¬ floating ⟨900, 1000, 10⟩ 1.0001 10 :=
  (flotation_classification ⟨900, 1000, 10⟩ 263.15 1.0001 10 0 1
      Sym2.zero Sym2.zero Sym2.zero (1, 0) (1, 0) (1, 0)).2.1
    (by norm_num [flotation_tolerance])

/-- C3: `ShallowStream::driving_stress` assembles on every cell the interior
contribution `−ρ_ice·g·h·∇s` tested against each vector basis function,
plus, only on boundary faces whose boundary id (1) marks the calving
terminus, a frontal term `½·g·(ρ_ice·H² − ρ_water·D²)·n` when the draft
`D = s − H` is below sea level (`D < 0`), and only the ice overburden term
`½·g·ρ_ice·H²·n` when `D ≥ 0`; the `D < 0` test is a pure discriminator. -/
theorem driving_stress_terms (pc : PhysicalConstants) (h s H dx dl : ℝ)
    (grad_s n phi : Vec2) (atB : Bool) (bid : ℕ) :
    drivingStressQPointTerm pc h grad_s phi dx
        = -(pc.rho_ice * pc.gravity * h) * dotV phi grad_s * dx
    ∧ (s - H < 0 →
        frontalStressQPointTerm pc s H n phi dl
          = 0.5 * pc.gravity
              * (pc.rho_ice * H * H - pc.rho_water * (s - H) * (s - H))
              * dotV phi n * dl)
    ∧ (0 ≤ s - H →
        frontalStressQPointTerm pc s H n phi dl
          = 0.5 * pc.gravity * (pc.rho_ice * H * H) * dotV phi n * dl)
    ∧ (atB = true → bid = 1 →
        faceFrontalTerm pc atB bid s H n phi dl
          = frontalStressQPointTerm pc s H n phi dl)
    ∧ ((atB = true ∧ bid = 1 → False) →
        faceFrontalTerm pc atB bid s H n phi dl = 0) := by
  refine ⟨?_, ?_, ?_, ?_, ?_⟩
  · unfold drivingStressQPointTerm dotV smulV
    ring
  · intro hD
    unfold frontalStressQPointTerm dotV smulV
    rw [if_pos hD]
    ring
  · intro hD
    unfold frontalStressQPointTerm dotV smulV
    rw [if_neg (not_lt.mpr hD)]
    ring
  · intro h1 h2
    unfold faceFrontalTerm
    rw [if_pos ⟨h1, h2⟩]
  · intro hn
    unfold faceFrontalTerm
    rw [if_neg hn]

/-- Witness for C3: at a marine terminus with densities 900 and 1000,
thickness 1 and surface 0 (draft −1 below sea level), the frontal stress at
a unit normal and unit basis value is `½·10·(900 − 1000) = −500`. -/
theorem driving_stress_terms_witness :
    frontalStressQPointTerm ⟨900, 1000, 10⟩ 0 1 (1, 0) (1, 0) 1 = -500 := by
  have h := (driving_stress_terms ⟨900, 1000, 10⟩ 0 0 1 1 1
      (0, 0) (1, 0) (1, 0) true 1).2.1 (by norm_num)
  rw [h]
  norm_num [dotV]

/-- C10: the floating/grounded test in `ShallowStream::residual` and
`velocity_matrix` divides the surface value by the flotation thickness
`(1 − ρ_ice/ρ_water)·H`, which is zero wherever the thickness `H` is zero,
so the classification divides by zero at zero-thickness quadrature points;
the guard fails only under the stronger precondition that `H` is nonzero
(with `ρ_ice/ρ_water ≠ 1`). -/
theorem flotation_thickness_division (pc : PhysicalConstants) (s H : ℝ) :
    floatingChecked pc s 0 = none
    ∧ (pc.rho_ice / pc.rho_water ≠ 1 → 0 < H →
        floatingChecked pc s H = some (decide (floating pc s H))) := by
  constructor
  · unfold floatingChecked
    rw [if_pos (mul_zero _)]
  · intro h1 h2
    unfold floatingChecked
    rw [if_neg]
    intro hEq
    rcases mul_eq_zero.mp hEq with h | h
    · exact h1 (by linarith)
    · exact absurd h (ne_of_gt h2)

/-- Witness for C10: with densities 900 and 1000 and a strictly positive
thickness 10, the guarded classification succeeds. -/
theorem flotation_thickness_division_witness :
    floatingChecked ⟨900, 1000, 10⟩ 2 10
      = some (decide (floating ⟨900, 1000, 10⟩ 2 10)) :=
  (flotation_thickness_division ⟨900, 1000, 10⟩ 2 10).2
    (by norm_num) (by norm_num)

/-- C9: `CTensors::linearized` divides by the effective strain rate
`ε_e = sqrt((ε·ε + tr(ε)²)/2)` with no guard when forming
`γ = (ε + tr(ε)·I)/ε_e`, so for the zero strain-rate tensor the divisor is
zero; `ε_e` vanishes exactly on the zero tensor, so the division-by-zero
branch is unreachable only under the precondition that the strain rate is
nonzero. -/
theorem linearized_zero_strain_division (temperature h : ℝ) (eps : Sym2) :
    CTensors.linearizedChecked temperature h Sym2.zero = none
    ∧ (epsE eps = 0 ↔ eps = Sym2.zero)
    ∧ (epsE eps ≠ 0 →
        CTensors.linearizedChecked temperature h eps
          = some (CTensors.linearized temperature h eps)) := by
  refine ⟨?_, epsE_eq_zero_iff eps, ?_⟩
  · unfold CTensors.linearizedChecked
    rw [if_pos ((epsE_eq_zero_iff Sym2.zero).mpr rfl)]
  · intro hne
    unfold CTensors.linearizedChecked
    rw [if_neg hne]

/-- Witness for C9: at the nonzero strain rate with `ε_xx = 1`, the guarded
linearization succeeds. -/
theorem linearized_zero_strain_division_witness :
    CTensors.linearizedChecked 263.15 1 ⟨1, 0, 0⟩
      = some (CTensors.linearized 263.15 1 ⟨1, 0, 0⟩) :=
  (linearized_zero_strain_division 263.15 1 ⟨1, 0, 0⟩).2.2 (by
    rw [Ne, epsE_eq_zero_iff]
    intro h
    have := congrArg Sym2.xx h
    norm_num [Sym2.zero] at this)

/-- C6: for every strain-rate tensor `ε` and all symmetric test tensors `v`
and `w`, the linearized tangent tensor `CTensors::linearized(T, h, ε)`
defines a symmetric bilinear form (`v·C·w = w·C·v`) whose quadratic form is
non-negative (`v·C·v ≥ 0`), given the non-negativity precondition on the
thickness `h`. -/
theorem linearized_symmetric_nonneg (temperature h : ℝ) (hh : 0 ≤ h)
    (eps v w : Sym2) :
    CTensors.linearized temperature h eps v w
        = CTensors.linearized temperature h eps w v
    ∧ 0 ≤ CTensors.linearized temperature h eps v v := by
  have hnu : 0 ≤ 2 * (h * viscosity temperature (epsE eps)) :=
    mul_nonneg (by norm_num)
      (mul_nonneg hh (viscosity_nonneg temperature _ (epsE_nonneg eps)))
  constructor
  · simp only [CTensors.linearized, CTensors.C, CTensors.II, CTensors.outerProduct,
      CTensors.I, gammaT, ddot, Sym2.tr]
    ring
  · have houter : CTensors.outerProduct (gammaT eps) (gammaT eps) v v
        = ddot v (gammaT eps) ^ 2 := by
      simp only [CTensors.outerProduct]
      rw [ddot_comm (gammaT eps) v]
      ring
    have key : 0 ≤ CTensors.C v v
        - CTensors.outerProduct (gammaT eps) (gammaT eps) v v / 3 := by
      rw [houter]
      nlinarith [gamma_sq_le eps v, ctensorC_self_nonneg v]
    exact mul_nonneg hnu key

/-- Witness for C6: at temperature 263.15, thickness 1 and the unit
extensional strain rate, the bilinear form is symmetric between two distinct
test tensors and its quadratic form is non-negative. -/
theorem linearized_symmetric_nonneg_witness :
    CTensors.linearized 263.15 1 ⟨1, 0, 0⟩ ⟨1, 0, 0⟩ ⟨0, 1, 0⟩
        = CTensors.linearized 263.15 1 ⟨1, 0, 0⟩ ⟨0, 1, 0⟩ ⟨1, 0, 0⟩
    ∧ 0 ≤ CTensors.linearized 263.15 1 ⟨1, 0, 0⟩ ⟨1, 0, 0⟩ ⟨1, 0, 0⟩ :=
  linearized_symmetric_nonneg 263.15 1 (by norm_num) ⟨1, 0, 0⟩ ⟨1, 0, 0⟩ ⟨0, 1, 0⟩

/-- C1 counterexample: the Newton loop of `ShallowStream::diagnostic_solve`
continues only while `error > tolerance`, so a run whose relative residual
norm lands exactly on `1e−10` terminates after 1 iteration — before the
100-iteration cap — even though the norm never dropped strictly below
`1e−10`, contradicting the claimed termination condition. -/
theorem newton_tolerance_boundary_counterexample :
    newtonIterate ctxTol max_iterations (0 : ℝ) errorInit
        = Except.ok ⟨0, 1.0e-10, 1⟩
    ∧ ¬ ((1.0e-10 : ℝ) < tolerance) ∧ (1 : ℕ) ≠ max_iterations := by
  refine ⟨?_, by norm_num [tolerance], by norm_num [max_iterations]⟩
  rw [show max_iterations = 99 + 1 from rfl,
    newtonIterate_step ctxTol 99 0 errorInit 0
      (by norm_num [tolerance, errorInit]) rfl]
  have hu : (0 : ℝ) + alpha • (0 : ℝ) = 0 := by simp
  rw [hu]
  have herr : ctxTol.norm (ctxTol.residual (0 : ℝ)) / ctxTol.norm ctxTol.tau
      = 1.0e-10 := by
    norm_num [ctxTol]
  rw [herr, newtonIterate_stop ctxTol 99 0 1.0e-10 (by norm_num [tolerance])]
  rfl

/-- C1 (amended): in `ShallowStream::diagnostic_solve`, every iteration
updates the velocity by `u ← u + 0.1·δu` with the fixed damping factor
`α = 0.1` applied to the linear-system increment `δu`, recomputes the
relative residual norm `‖r‖/‖τ‖` against the driving-stress norm assembled
once at the start, and the loop terminates when this norm drops to the
tolerance or below (`≤ 1e−10`) or when the iteration count reaches 100,
whichever comes first; on reaching the cap the best-available velocity is
still returned rather than an error. -/
theorem diagnostic_solve_iteration (V : Type) [AddCommGroup V] [Module ℝ V]
    (c : DiagCtx V) :
    (alpha = 0.1 ∧ tolerance = 1.0e-10 ∧ max_iterations = 100)
    ∧ (∀ (n : ℕ) (u : V) (err : ℝ) (d : V), tolerance < err →
        c.linSolve u (c.residual u) = Except.ok d →
        newtonIterate c (n + 1) u err
          = Except.map (fun res => ⟨res.u, res.error, res.iters + 1⟩)
              (newtonIterate c n (u + alpha • d)
                (c.norm (c.residual (u + alpha • d)) / c.norm c.tau)))
    ∧ (∀ (n : ℕ) (u : V) (err : ℝ), err ≤ tolerance →
        newtonIterate c n u err = Except.ok ⟨u, err, 0⟩)
    ∧ (∀ (n : ℕ) (u : V) (err : ℝ) (res : NewtonResult V),
        newtonIterate c n u err = Except.ok res →
        res.iters ≤ n ∧ (res.error ≤ tolerance ∨ res.iters = n))
    ∧ (∀ (u0 : V) (res : NewtonResult V),
        newtonIterate c max_iterations u0 errorInit = Except.ok res →
        diagnostic_solve c u0 = Except.ok res.u) := by
  refine ⟨⟨rfl, rfl, rfl⟩, newtonIterate_step c, newtonIterate_stop c,
    newtonIterate_exit c, ?_⟩
  intro u0 res h
  unfold diagnostic_solve
  rw [h]
  rfl

/-- Witness for C1 (amended): in the concrete context `ctxTol`, a loop
entered with a relative residual norm of zero stops at once, returning the
initial iterate with zero further iterations. -/
theorem diagnostic_solve_iteration_witness :
    newtonIterate ctxTol 5 (3 : ℝ) 0 = Except.ok ⟨3, 0, 0⟩ :=
  (diagnostic_solve_iteration ℝ ctxTol).2.2.1 5 3 0 (by norm_num [tolerance])

/-- C4: `linear_solve` runs preconditioned conjugate gradients under a fixed
budget of at most 1000 iterations and absolute residual tolerance `1e−12`;
if the budget is exhausted without reaching tolerance it signals a
solver-failure condition that propagates to the caller, and the constraint
relations are re-imposed on the solution after every successful solve. -/
theorem linear_solve_spec {V : Type} (p : CGSystem V) (constraints : V → V)
    (x0 : V) :
    ((∀ k, k ≤ 1000 → 1.0e-12 < p.resNorm (p.step^[k] x0)) →
        linear_solve p constraints x0 = Except.error SolverFailure.noConvergence)
    ∧ ∀ y, linear_solve p constraints x0 = Except.ok y →
        ∃ k, k ≤ 1000 ∧ p.resNorm (p.step^[k] x0) ≤ 1.0e-12
          ∧ y = constraints (p.step^[k] x0) := by
  constructor
  · intro h
    unfold linear_solve
    rw [cgSolve_error_spec p 1.0e-12 1000 x0 h]
    rfl
  · intro y h
    unfold linear_solve at h
    cases hcg : cgSolve p 1.0e-12 1000 x0 with
    | error e =>
      rw [hcg] at h
      exact absurd h (by simp [Except.map])
    | ok z =>
      rw [hcg] at h
      obtain ⟨k, hk, hz, hres⟩ := cgSolve_ok_spec p 1.0e-12 1000 x0 z hcg
      have hy : y = constraints z := by
        have : Except.ok (constraints z) = Except.ok y := h
        exact (Except.ok.inj this).symm
      refine ⟨k, hk, ?_, ?_⟩
      · rw [← hz]
        exact hres
      · rw [hy, hz]

/-- Witness for C4: a system whose monitored residual norm never reaches the
tolerance makes `linear_solve` fail with the solver-failure condition. -/
theorem linear_solve_spec_witness :
    linear_solve cgStall (fun x => x) 0
      = Except.error SolverFailure.noConvergence :=
  (linear_solve_spec cgStall (fun x => x) 0).1
    (fun k _ => by norm_num [cgStall])

/-- C5 counterexample: `ShallowStream::diagnostic_solve` returns only the
velocity field.  Two runs from the same initial guess — one converging after
a single iteration, one exhausting the 100-iteration cap with relative
residual norm 1 above the tolerance — return exactly the same value, so no
status or iteration count is returned alongside the velocity from which the
caller could check convergence. -/
theorem diagnostic_solve_no_status_counterexample :
    diagnostic_solve ctxConv (5 : ℝ) = Except.ok 5
    ∧ diagnostic_solve ctxStall (5 : ℝ) = Except.ok 5
    ∧ newtonIterate ctxConv max_iterations (5 : ℝ) errorInit = Except.ok ⟨5, 0, 1⟩
    ∧ newtonIterate ctxStall max_iterations (5 : ℝ) errorInit = Except.ok ⟨5, 1, 100⟩
    ∧ (0 : ℝ) ≤ tolerance ∧ tolerance < 1 := by
  refine ⟨?_, ?_, ctxConv_run, ctxStall_run, by norm_num [tolerance],
    by norm_num [tolerance]⟩
  · unfold diagnostic_solve
    rw [ctxConv_run]
    rfl
  · unfold diagnostic_solve
    rw [ctxStall_run]
    rfl

/-- C5 (amended): when `ShallowStream::diagnostic_solve` exceeds its
iteration cap the condition is non-fatal and the best estimate of the
velocity is returned; however, no status or iteration count is returned
alongside the velocity — the function returns only the velocity field, so
the caller must assess convergence by other means. -/
theorem diagnostic_solve_cap_nonfatal (V : Type) [AddCommGroup V] [Module ℝ V]
    (c : DiagCtx V) (u0 : V) (res : NewtonResult V)
    (hloop : newtonIterate c max_iterations u0 errorInit = Except.ok res)
    (hnc : tolerance < res.error) :
    res.iters = max_iterations ∧ diagnostic_solve c u0 = Except.ok res.u := by
  have hx := newtonIterate_exit c max_iterations u0 errorInit res hloop
  refine ⟨?_, ?_⟩
  · rcases hx.2 with h | h
    · exact absurd hnc (not_lt.mpr h)
    · exact h
  · unfold diagnostic_solve
    rw [hloop]
    rfl

/-- Witness for C5 (amended): the stalled run reaches the cap of 100
iterations and still returns its last velocity iterate without error. -/
theorem diagnostic_solve_cap_nonfatal_witness :
    (⟨5, 1, 100⟩ : NewtonResult ℝ).iters = max_iterations
    ∧ diagnostic_solve ctxStall (5 : ℝ)
        = Except.ok (⟨5, 1, 100⟩ : NewtonResult ℝ).u :=
  diagnostic_solve_cap_nonfatal ℝ ctxStall 5 ⟨5, 1, 100⟩ ctxStall_run
    (by norm_num [tolerance])

/-- C7: for inputs with zero driving stress and zero friction everywhere —
the residual being identically the zero vector — the diagnostic solve
returns the input initial guess unchanged within linear-solver tolerance
(`u0 + 0.1·δu` for the solver's near-zero increment `δu`, and exactly `u0`
when `δu = 0`); moreover with zero friction and zero strain rate each
quadrature-point residual contribution vanishes. -/
theorem zero_stress_zero_friction_solve (V : Type) [AddCommGroup V]
    [Module ℝ V] (c : DiagCtx V) (u0 d : V)
    (htau : c.tau = 0) (hres : ∀ u, c.residual u = 0) (hnorm : c.norm 0 = 0)
    (hsolve : c.linSolve u0 0 = Except.ok d) :
    (diagnostic_solve c u0 = Except.ok (u0 + alpha • d)
      ∧ (d = 0 → diagnostic_solve c u0 = Except.ok u0))
    ∧ ∀ (pc : PhysicalConstants) (temperature s H dx : ℝ) (ephi : Sym2)
        (phi uq : Vec2),
        residualQPointTerm pc temperature s H 0 dx Sym2.zero ephi phi uq = 0 := by
  constructor
  · have hmain : diagnostic_solve c u0 = Except.ok (u0 + alpha • d) := by
      unfold diagnostic_solve
      rw [show max_iterations = 99 + 1 from rfl,
        newtonIterate_step c 99 u0 errorInit d
          (by norm_num [tolerance, errorInit])
          (by rw [hres u0]; exact hsolve)]
      rw [hres (u0 + alpha • d), htau, hnorm, zero_div]
      rw [newtonIterate_stop c 99 (u0 + alpha • d) 0 (by norm_num [tolerance])]
      rfl
    refine ⟨hmain, fun hd => ?_⟩
    rw [hmain, hd]
    simp
  · intro pc temperature s H dx ephi phi uq
    unfold residualQPointTerm CTensors.nonlinear CTensors.C CTensors.II
      CTensors.outerProduct CTensors.I ddot
    by_cases hfl : floating pc s H
    · rw [if_pos hfl]
      simp only [Sym2.zero]
      ring
    · rw [if_neg hfl]
      simp only [Sym2.zero]
      ring

/-- Witness for C7: in the concrete context with zero driving stress, zero
residual and a zero solver increment, the diagnostic solve returns the
initial guess 7 unchanged. -/
theorem zero_stress_zero_friction_solve_witness :
    diagnostic_solve ctxZero (7 : ℝ) = Except.ok 7 :=
  ((zero_stress_zero_friction_solve ℝ ctxZero 7 0 rfl (fun _ => rfl) rfl
      rfl).1).2 rfl

end Icepack
